import Mathlib

/-!
Verification of the replication-progress bookkeeping core of zrepl
(endpoint/endpoint_zfs.go, endpoint/jobid.go, zfs/versions.go) against its
natural-language specification.

Go strings are modelled as Lean `String` (a structure around `List Char`);
64-bit integers as `Nat` (all arithmetic here is comparisons and hex
formatting of values below 2^64, so no overflow is observable); fallible Go
functions return `Except GoErr`; Go panics are the `GoErr.panicked`
constructor.  Mutating operations on the ZFS pool are modelled as explicit
state passing over `FsState`, the state of a single filesystem.
-/

namespace Zrepl

/-- Go error values.  `errors.Wrap`/`errors.Wrapf` only prepend message text,
which no branch of the modelled code inspects, so wrapping keeps the
constructor and message.  `datasetDoesNotExist` and `bookmarkExists` model the
distinguishable error types `*zfs.DatasetDoesNotExist` / `*zfs.BookmarkExists`
that the code matches on by type assertion. -/
inductive GoErr where
  | err (msg : String)
  | panicked (msg : String)
  | datasetDoesNotExist (path : String)
  | bookmarkExists (name : String)
deriving DecidableEq, Repr

abbrev Res (α : Type) := Except GoErr α

def exceptDecEq {ε α : Type} [DecidableEq ε] [DecidableEq α] :
    DecidableEq (Except ε α)
  | .error e, .error f =>
    if h : e = f then isTrue (by rw [h]) else
      isFalse (by intro hh; cases hh; exact h rfl)
  | .error _, .ok _ => isFalse (by intro hh; cases hh)
  | .ok _, .error _ => isFalse (by intro hh; cases hh)
  | .ok a, .ok b =>
    if h : a = b then isTrue (by rw [h]) else
      isFalse (by intro hh; cases hh; exact h rfl)

instance {ε α : Type} [DecidableEq ε] [DecidableEq α] :
    DecidableEq (Except ε α) := exceptDecEq

/-! ## String helpers (Go `strings` package semantics) -/

/-- Split a character list at the first occurrence of `d`:
`some (before, after)` when `d` occurs, `none` otherwise. -/
def splitFirst (d : Char) : List Char → Option (List Char × List Char)
  | [] => none
  | c :: cs =>
    if c = d then some ([], cs)
    else (splitFirst d cs).map (fun p => (c :: p.1, p.2))

/-- Go `strings.SplitN(s, d, 2)`: `[s]` when `d` is absent, otherwise the
prefix before the first `d` and the remainder after it. -/
def goSplitN2 (s : List Char) (d : Char) : List (List Char) :=
  match splitFirst d s with
  | none => [s]
  | some (a, b) => [a, b]

/-! ## Version identity (zfs/versions.go) -/

inductive VersionType where
  | bookmark
  | snapshot
deriving DecidableEq, Repr

def VersionType.DelimiterChar : VersionType → Char
  | .bookmark => '#'
  | .snapshot => '@'

/-- `DecomposeVersionString` from zfs/versions.go. -/
def DecomposeVersionString (v : String) :
    Res (String × VersionType × String) :=
  if v.length < 3 then
    .error (.err ("snapshot or bookmark name implausibly short: " ++ v))
  else
    match goSplitN2 v.data '@', goSplitN2 v.data '#' with
    | [fs, name], [_] => .ok (⟨fs⟩, VersionType.snapshot, ⟨name⟩)
    | [_], [fs, name] => .ok (⟨fs⟩, VersionType.bookmark, ⟨name⟩)
    | _, _ =>
      .error (.err ("dataset cannot be snapshot and bookmark at the same time: " ++ v))

/-- `FilesystemVersion` from zfs/versions.go (`Creation` is carried as a
Unix timestamp). -/
structure FilesystemVersion where
  type : VersionType
  name : String
  guid : Nat
  createTXG : Nat
  creation : Nat := 0
deriving DecidableEq, Repr

def FilesystemVersion.ToAbsPath (v : FilesystemVersion) (p : String) : String :=
  p ++ (⟨[v.type.DelimiterChar]⟩ : String) ++ v.name

/-! ## Lemmas about the split helpers -/

theorem splitFirst_eq_none (d : Char) (s : List Char) (h : d ∉ s) :
    splitFirst d s = none := by
  induction s with
  | nil => rfl
  | cons c cs ih =>
    simp only [List.mem_cons, not_or] at h
    simp [splitFirst, Ne.symm h.1, ih h.2]

theorem goSplitN2_not_mem (d : Char) (s : List Char) (h : d ∉ s) :
    goSplitN2 s d = [s] := by
  simp [goSplitN2, splitFirst_eq_none d s h]

theorem splitFirst_spec (d : Char) (s : List Char) (h : d ∈ s) :
    ∃ a b, splitFirst d s = some (a, b) ∧ s = a ++ d :: b ∧ d ∉ a := by
  induction s with
  | nil => cases h
  | cons c cs ih =>
    by_cases hc : c = d
    · exact ⟨[], cs, by simp [splitFirst, hc], by simp [hc], by simp⟩
    · have hmem : d ∈ cs := by
        cases List.mem_cons.mp h with
        | inl h' => exact absurd h'.symm hc
        | inr h' => exact h'
      obtain ⟨a, b, h1, h2, h3⟩ := ih hmem
      refine ⟨c :: a, b, ?_, by simp [h2], ?_⟩
      · simp [splitFirst, hc, h1]
      · simp only [List.mem_cons, not_or]
        exact ⟨fun hh => hc hh.symm, h3⟩

theorem goSplitN2_mem (d : Char) (s : List Char) (h : d ∈ s) :
    ∃ a b, goSplitN2 s d = [a, b] ∧ s = a ++ d :: b ∧ d ∉ a := by
  obtain ⟨a, b, h1, h2, h3⟩ := splitFirst_spec d s h
  exact ⟨a, b, by simp [goSplitN2, h1], h2, h3⟩

/-- **C8**: For every string `s`, `DecomposeVersionString s` fails if `s` is
shorter than 3 characters, fails if `s` contains both `@` and `#` or neither,
and otherwise splits `s` at the first occurrence of the present delimiter,
returning the prefix as filesystem, type snapshot for `@` or bookmark for
`#`, and the remainder as name. -/
theorem C8_DecomposeVersionString_spec (s : String) :
    (s.length < 3 → ∃ e, DecomposeVersionString s = .error e) ∧
    ((('@' ∈ s.data ∧ '#' ∈ s.data) ∨ ('@' ∉ s.data ∧ '#' ∉ s.data)) →
      ∃ e, DecomposeVersionString s = .error e) ∧
    (3 ≤ s.length → '@' ∈ s.data → '#' ∉ s.data →
      ∃ a b, s.data = a ++ '@' :: b ∧ '@' ∉ a ∧
        DecomposeVersionString s = .ok (⟨a⟩, VersionType.snapshot, ⟨b⟩)) ∧
    (3 ≤ s.length → '#' ∈ s.data → '@' ∉ s.data →
      ∃ a b, s.data = a ++ '#' :: b ∧ '#' ∉ a ∧
        DecomposeVersionString s = .ok (⟨a⟩, VersionType.bookmark, ⟨b⟩)) := by
  refine ⟨?_, ?_, ?_, ?_⟩
  · intro h
    exact ⟨.err ("snapshot or bookmark name implausibly short: " ++ s),
      by simp [DecomposeVersionString, h]⟩
  · intro h
    by_cases hlen : s.length < 3
    · exact ⟨.err ("snapshot or bookmark name implausibly short: " ++ s),
        by simp [DecomposeVersionString, hlen]⟩
    · cases h with
      | inl h =>
        obtain ⟨a, b, h1, _, _⟩ := goSplitN2_mem '@' s.data h.1
        obtain ⟨c, d, h2, _, _⟩ := goSplitN2_mem '#' s.data h.2
        exact ⟨.err ("dataset cannot be snapshot and bookmark at the same time: " ++ s),
          by simp [DecomposeVersionString, hlen, h1, h2]⟩
      | inr h =>
        have h1 := goSplitN2_not_mem '@' s.data h.1
        have h2 := goSplitN2_not_mem '#' s.data h.2
        exact ⟨.err ("dataset cannot be snapshot and bookmark at the same time: " ++ s),
          by simp [DecomposeVersionString, hlen, h1, h2]⟩
  · intro hlen hat hno
    obtain ⟨a, b, h1, h2, h3⟩ := goSplitN2_mem '@' s.data hat
    have h4 := goSplitN2_not_mem '#' s.data hno
    refine ⟨a, b, h2, h3, ?_⟩
    simp [DecomposeVersionString, Nat.not_lt.mpr hlen, h1, h4]
  · intro hlen hsh hno
    obtain ⟨a, b, h1, h2, h3⟩ := goSplitN2_mem '#' s.data hsh
    have h4 := goSplitN2_not_mem '@' s.data hno
    refine ⟨a, b, h2, h3, ?_⟩
    simp [DecomposeVersionString, Nat.not_lt.mpr hlen, h1, h4]

/-- Witness for C8 at concrete inputs: `"a@"` is too short, `"a@b#c"` mixes
delimiters, `"tank/fs@snap 1"` splits at the `@`. -/
theorem C8_DecomposeVersionString_spec_witness :
    (∃ e, DecomposeVersionString "a@" = .error e) ∧
    (∃ e, DecomposeVersionString "a@b#c" = .error e) ∧
    (∃ a b, ("tank/fs@snap 1" : String).data = a ++ '@' :: b ∧ '@' ∉ a ∧
      DecomposeVersionString "tank/fs@snap 1" =
        .ok (⟨a⟩, VersionType.snapshot, ⟨b⟩)) := by
  refine ⟨(C8_DecomposeVersionString_spec "a@").1 (by decide),
    (C8_DecomposeVersionString_spec "a@b#c").2.1 (.inl (by decide)),
    (C8_DecomposeVersionString_spec "tank/fs@snap 1").2.2.1
      (by decide) (by decide) (by decide)⟩

/-! ## Naming rules (zfs package namecheck; not part of src/) -/

/-- Modelled from the spec: the legal ZFS name character set for a single
component (§3 DatasetPath "legal character set", §6.3), i.e. alphanumerics
plus `- _ . :` and the space character.  `@`, `#`, `/` and control
characters are not component characters. -/
def goodComponentChar (c : Char) : Bool :=
  c.isAlphanum || c = '-' || c = '_' || c = '.' || c = ':' || c = ' '

/-- A non-empty run of legal component characters. -/
def validComponent (xs : List Char) : Bool :=
  !xs.isEmpty && xs.all goodComponentChar

/-- Modelled from the spec (§3 DatasetPath): `zfs.NewDatasetPath` is not in
src/; a valid dataset path is non-empty with slash-separated non-empty
components over the legal character set (hence no consecutive slashes and no
leading or trailing slash). -/
def validDatasetPathStr (s : String) : Bool :=
  !s.data.isEmpty && (s.data.splitOn '/').all validComponent

/-- Modelled from the spec (§3): `zfs.NewDatasetPath`. -/
def NewDatasetPath (s : String) : Res String :=
  if validDatasetPathStr s then .ok s
  else .error (.err ("invalid dataset path: " ++ s))

/-- Modelled from the spec (§4.B, §6.3): `zfs.ValidHoldTag` is not in src/;
a hold tag must be a non-empty bounded string over the component character
set (the job-id character set is the intersection of "legal ZFS hold tag"
and "legal ZFS dataset path component", so `/` is not a hold-tag
character). -/
def ValidHoldTag (tag : String) : Res Unit :=
  if !tag.data.isEmpty && tag.data.all goodComponentChar && tag.length ≤ 256 then
    .ok ()
  else
    .error (.err ("invalid hold tag: " ++ tag))

/-- Modelled from the spec (§4.A, §3): `zfs.EntityNamecheck(path, t)` is not
in src/; the path must be `<dataset><delim><component>` where the delimiter
belongs to the entity type `t`, with a bounded total length. -/
def EntityNamecheck (path : String) (t : VersionType) : Res Unit :=
  match splitFirst t.DelimiterChar path.data with
  | some (ds, comp) =>
    if validDatasetPathStr ⟨ds⟩ && validComponent comp && path.length ≤ 255 then
      .ok ()
    else
      .error (.err ("invalid entity name: " ++ path))
  | none => .error (.err ("path does not contain delimiter: " ++ path))

/-! ## JobID (endpoint/jobid.go) -/

structure JobID where
  jid : String
deriving DecidableEq, Repr

def MakeJobID (s : String) : Res JobID :=
  if s.length = 0 then .error (.err "must not be empty string")
  else
    match NewDatasetPath s with
    | .error _ => .error (.err ("must be usable in a ZFS dataset path: " ++ s))
    | .ok _ => .ok ⟨s⟩

/-- `JobID.String()` (which calls `expectInitialized` and panics on the
zero-value JobID). -/
def JobID.string (j : JobID) : Res String :=
  if j.jid = "" then .error (.panicked "use of unitialized JobID")
  else .ok j.jid

/-- `JobID.MustValidate()`: panics on the zero-value JobID. -/
def JobID.MustValidate (j : JobID) : Res Unit :=
  if j.jid = "" then .error (.panicked "use of unitialized JobID")
  else .ok ()

/-- Body of a JSON string token after the opening quote: decoded content up
to the closing quote, with the basic escapes; `none` on malformed input
(model of Go `encoding/json` string decoding). -/
def jsonEscape (e : Char) : Option Char :=
  if e = '"' then some '"'
  else if e = '\\' then some '\\'
  else if e = '/' then some '/'
  else if e = 'n' then some '\n'
  else if e = 't' then some '\t'
  else if e = 'r' then some '\r'
  else none

def jsonBody : List Char → Option (List Char)
  | [] => none
  | [c] => if c = '"' then some [] else none
  | c :: e :: cs =>
    if c = '"' then none
    else if c = '\\' then
      (jsonEscape e).bind (fun d => (jsonBody cs).map (d :: ·))
    else (jsonBody (e :: cs)).map (c :: ·)

/-- Model of `json.Unmarshal(b, &s)` for `s : string`: `b` must be a quoted
JSON string token; its decoded content is stored. -/
def goJsonUnmarshalString (b : String) : Res String :=
  match b.data with
  | '"' :: rest =>
    match jsonBody rest with
    | some content => .ok ⟨content⟩
    | none => .error (.err "invalid JSON string")
  | _ => .error (.err "json: cannot unmarshal into Go value of type string")

/-- `JobID.UnmarshalJSON`: `json.Unmarshal(b, &j.jid)` — the decoded string
is stored as the id with no `MakeJobID` validation. -/
def JobID.UnmarshalJSON (b : String) : Res JobID :=
  match goJsonUnmarshalString b with
  | .error e => .error e
  | .ok s => .ok ⟨s⟩

/-! ## Name codec (endpoint/endpoint_zfs.go) -/

/-- `some s` when `lit` is an initial segment of the input, with `s` the
remainder; `none` otherwise. -/
def stripLit : List Char → List Char → Option (List Char)
  | [], s => some s
  | _ :: _, [] => none
  | c :: cs, x :: xs => if x = c then stripLit cs xs else none

def StepHoldTag (jobid : JobID) : Res String :=
  match jobid.string with
  | .error e => .error e
  | .ok s =>
    let t := "zrepl_STEP_J_" ++ s
    match ValidHoldTag t with
    | .error e => .error e
    | .ok _ => .ok t

/-- `ParseStepHoldTag`: match `tag` against the Go regexp
`^zrepl_STEP_J_(.+)` — the capture is the maximal non-empty run of
non-newline characters after the literal. -/
def ParseStepHoldTag (tag : String) : Res JobID :=
  match stripLit "zrepl_STEP_J_".data tag.data with
  | none => .error (.err "parse hold tag: match regex")
  | some rest =>
    let cap := rest.takeWhile (fun c => c ≠ '\n')
    if cap.isEmpty then .error (.err "parse hold tag: match regex")
    else
      match MakeJobID ⟨cap⟩ with
      | .error _ => .error (.err "parse hold tag: invalid job id field")
      | .ok j => .ok j

/-- `%016x` formatting of a 64-bit value: 16 lowercase hex digits, most
significant first (for `guid < 2^64` this is exactly Go's `%016x`). -/
def hex16 (n : Nat) : String :=
  ⟨(List.range 16).map (fun i =>
    let d := n / 16 ^ (15 - i) % 16
    if d < 10 then Char.ofNat (48 + d) else Char.ofNat (97 + (d - 10)))⟩

/-- `StepBookmarkName` (the caller must have validated `v`). -/
def StepBookmarkName (fs : String) (guid : Nat) (id : JobID) : Res String :=
  match id.string with
  | .error e => .error e
  | .ok s =>
    let bmname := "zrepl_STEP_G_" ++ hex16 guid ++ "_J_" ++ s
    match EntityNamecheck (fs ++ "#" ++ bmname) .bookmark with
    | .error e => .error e
    | .ok _ => .ok bmname

def isHexChar (c : Char) : Bool :=
  ('0' ≤ c && c ≤ '9') || ('a' ≤ c && c ≤ 'f') || ('A' ≤ c && c ≤ 'F')

def hexCharVal (c : Char) : Nat :=
  if '0' ≤ c && c ≤ '9' then c.toNat - 48
  else if 'a' ≤ c && c ≤ 'f' then c.toNat - 97 + 10
  else c.toNat - 65 + 10

/-- Blank characters that `Scanf` verbs skip before a token (newlines in the
input must match newlines in the format, so they are not skipped). -/
def isGoBlank (c : Char) : Bool := c = ' ' || c = '\t'

/-- Characters that terminate a `%s` token. -/
def isGoTokenEnd (c : Char) : Bool :=
  c = ' ' || c = '\t' || c = '\n' || c = '\r'

/-- Model of `fmt.Sscanf(input, "zrepl_STEP_G_%016x_J_%s", &guid, &jobIDStr)`:
literal format text must match the input exactly from the start; `%016x`
reads at most 16 hex digits (at least one) into `guid`; `%s` reads a maximal
non-empty run of non-blank characters.  `Sscanf` does not require the input
to be fully consumed. -/
def sscanfStepBookmark (input : List Char) : Res (Nat × List Char) :=
  match stripLit "zrepl_STEP_G_".data input with
  | none => .error (.err "input does not match format")
  | some r1 =>
    let r1 := r1.dropWhile isGoBlank
    let hexs := (r1.takeWhile isHexChar).take 16
    if hexs.isEmpty then .error (.err "expected integer")
    else
      let g := hexs.foldl (fun a c => a * 16 + hexCharVal c) 0
      let r2 := r1.drop hexs.length
      match stripLit "_J_".data r2 with
      | none => .error (.err "input does not match format")
      | some r3 =>
        let r3 := r3.dropWhile isGoBlank
        let tok := r3.takeWhile (fun c => !isGoTokenEnd c)
        if tok.isEmpty then .error (.err "unexpected EOF")
        else .ok (g, tok)

/-- `ParseStepBookmarkName` — `name` is the full bookmark name including the
dataset path; the `Sscanf` is applied to that full name. -/
def ParseStepBookmarkName (name : String) : Res (Nat × JobID) :=
  match EntityNamecheck name .bookmark with
  | .error e => .error e
  | .ok _ =>
    match sscanfStepBookmark name.data with
    | .error _ => .error (.err "step boomark name does not match format string")
    | .ok (guid, jobIDStr) =>
      if jobIDStr.length = 0 then
        .error (.err "parse step bookmark: empty job id field")
      else
        match MakeJobID ⟨jobIDStr⟩ with
        | .error _ => .error (.err "parse step bookmark: invalid job id")
        | .ok jobID => .ok (guid, jobID)

def LastReceivedHoldTag (jobID : JobID) : Res String :=
  match jobID.string with
  | .error e => .error e
  | .ok s =>
    let tag := "zrepl_last_received_J_" ++ s
    match ValidHoldTag tag with
    | .error e => .error e
    | .ok _ => .ok tag

/-- `ParseLastReceivedHoldTag`: match against the Go regexp
`^zrepl_last_received_J_(.+)$` — the remainder after the literal must be
non-empty and newline-free. -/
def ParseLastReceivedHoldTag (tag : String) : Res JobID :=
  match stripLit "zrepl_last_received_J_".data tag.data with
  | none => .error (.err "parse last-received-hold tag: does not match regex")
  | some rest =>
    if rest.isEmpty || rest.any (fun c => c = '\n') then
      .error (.err "parse last-received-hold tag: does not match regex")
    else
      match MakeJobID ⟨rest⟩ with
      | .error _ =>
        .error (.err "parse last-received-hold tag: invalid job id field")
      | .ok j => .ok j

/-! ## Claims C4, C5, C9, C10 -/

/-- **C4** (counter-evaluation): `ParseStepBookmarkName` applied to the full
name `tank/fs#zrepl_STEP_G_00000000deadbeef_J_myjob` does **not** return
guid `0xdeadbeef` and jobID `myjob`: the `Sscanf` format string starts with
the literal `zrepl_STEP_G_` while the scanned string is the full name
starting with `tank/fs#`, so the scan errors for every full name; the two
rejection cases of the claim do hold.  The last conjunct shows that the
scan of the name *without* the dataset-path part would have succeeded,
locating the slip. -/
theorem C4_ParseStepBookmarkName_eval :
    ParseStepBookmarkName "tank/fs#zrepl_STEP_G_00000000deadbeef_J_myjob" =
      .error (.err "step boomark name does not match format string") ∧
    ParseStepBookmarkName "tank/fs#some_other_bookmark" =
      .error (.err "step boomark name does not match format string") ∧
    ParseStepBookmarkName "tank/fs#zrepl_STEP_G_0000000000000000_J_" =
      .error (.err "step boomark name does not match format string") ∧
    sscanfStepBookmark "zrepl_STEP_G_00000000deadbeef_J_myjob".data =
      .ok (3735928559, "myjob".data) := by
  refine ⟨by decide, by decide, by decide, by decide⟩

/-- **C5** (counter-evaluation): the hold-tag codecs round-trip, but the
step-bookmark codec does not: `ParseStepBookmarkName` applied to
`<fs>#StepBookmarkName(fs, g, j)` fails for every valid input because the
`Sscanf` never matches the dataset-path part of the full name. -/
theorem C5_codec_round_trip_eval :
    MakeJobID "myjob" = .ok ⟨"myjob"⟩ ∧
    StepHoldTag ⟨"myjob"⟩ = .ok "zrepl_STEP_J_myjob" ∧
    ParseStepHoldTag "zrepl_STEP_J_myjob" = .ok ⟨"myjob"⟩ ∧
    LastReceivedHoldTag ⟨"myjob"⟩ = .ok "zrepl_last_received_J_myjob" ∧
    ParseLastReceivedHoldTag "zrepl_last_received_J_myjob" = .ok ⟨"myjob"⟩ ∧
    StepBookmarkName "tank/fs" 3735928559 ⟨"myjob"⟩ =
      .ok "zrepl_STEP_G_00000000deadbeef_J_myjob" ∧
    ParseStepBookmarkName
        ("tank/fs" ++ "#" ++ "zrepl_STEP_G_00000000deadbeef_J_myjob") =
      .error (.err "step boomark name does not match format string") := by
  refine ⟨by decide, by decide, by decide, by decide, by decide, by decide,
    by decide⟩

/-- **C9** (counter-evaluation): `MakeJobID` rejects the empty string, but it
validates only that the argument is usable as a ZFS dataset **path**; it
accepts `"foo/bar"`, which contains `/` and is legal neither as a single
dataset path component nor as a user hold tag, contradicting the always
valid-for-both guarantee. -/
theorem C9_MakeJobID_eval :
    MakeJobID "" = .error (.err "must not be empty string") ∧
    MakeJobID "foo/bar" = .ok ⟨"foo/bar"⟩ ∧
    ValidHoldTag "foo/bar" = .error (.err "invalid hold tag: foo/bar") ∧
    validComponent "foo/bar".data = false := by
  refine ⟨by decide, by decide, by decide, by decide⟩

theorem jsonBody_plain (xs : List Char) (h : ∀ c ∈ xs, c ≠ '"' ∧ c ≠ '\\') :
    jsonBody (xs ++ ['"']) = some xs := by
  induction xs with
  | nil => rfl
  | cons y ys ih =>
    have hy := h y (List.mem_cons_self y ys)
    have hys : ∀ c ∈ ys, c ≠ '"' ∧ c ≠ '\\' :=
      fun c hc => h c (List.mem_cons_of_mem y hc)
    cases ys with
    | nil => simp [jsonBody, hy.1, hy.2]
    | cons z zs =>
      have hih := ih hys
      simp only [List.cons_append] at hih
      simp [jsonBody, hy.1, hy.2, hih]

/-- **C10**: `JobID.UnmarshalJSON` stores the decoded JSON string as the id
with no `MakeJobID` validation: every JSON string (here: every string whose
characters need no escaping, and the concrete escaped forms are analogous)
unmarshals to a `JobID` holding exactly that string; in particular the JSON
empty string yields the zero-value `JobID`, on which `String()` — and hence
every encoder accepting the JobID — panics with "use of unitialized JobID",
so the always-valid guarantee fails for unmarshalled JobIDs. -/
theorem C10_UnmarshalJSON_no_validation :
    (∀ s : String, (∀ c ∈ s.data, c ≠ '"' ∧ c ≠ '\\') →
      JobID.UnmarshalJSON ("\"" ++ s ++ "\"") = .ok ⟨s⟩) ∧
    JobID.UnmarshalJSON "\"\"" = .ok ⟨""⟩ ∧
    JobID.string ⟨""⟩ = .error (.panicked "use of unitialized JobID") ∧
    StepHoldTag ⟨""⟩ = .error (.panicked "use of unitialized JobID") ∧
    LastReceivedHoldTag ⟨""⟩ = .error (.panicked "use of unitialized JobID") ∧
    (∀ fs g, StepBookmarkName fs g ⟨""⟩ =
      .error (.panicked "use of unitialized JobID")) := by
  refine ⟨?_, by decide, by decide, by decide, by decide, fun fs g => rfl⟩
  intro s h
  have hdata : ("\"" ++ s ++ "\"").data = '"' :: (s.data ++ ['"']) := by
    simp [String.data_append]
  simp [JobID.UnmarshalJSON, goJsonUnmarshalString, hdata, jsonBody_plain s.data h]

/-- Witness for C10 at concrete inputs. -/
theorem C10_UnmarshalJSON_no_validation_witness :
    (∀ c ∈ ("myjob" : String).data, c ≠ '"' ∧ c ≠ '\\') ∧
    JobID.UnmarshalJSON ("\"" ++ "myjob" ++ "\"") = .ok ⟨"myjob"⟩ ∧
    StepBookmarkName "tank/fs" 0 ⟨""⟩ =
      .error (.panicked "use of unitialized JobID") :=
  ⟨by decide, C10_UnmarshalJSON_no_validation.1 "myjob" (by decide),
    C10_UnmarshalJSON_no_validation.2.2.2.2.2 "tank/fs" 0⟩

/-! ## ZFS capability port (zfs package; modelled state of one filesystem) -/

/-- Modelled from the spec (§4.C): the ZFS driver is not part of src/.  The
observable state of a single filesystem: its snapshots and bookmarks (as
returned by the version listing, ascending by create_txg), and the user
holds on its snapshots as (snapshot name, tag) pairs. -/
structure FsState where
  versions : List FilesystemVersion
  holds : List (String × String)
deriving DecidableEq, Repr

def findVersion (s : FsState) (t : VersionType) (name : String) :
    Option FilesystemVersion :=
  s.versions.find? (fun v => decide (v.type = t ∧ v.name = name))

/-- Resolve a relative version name (`@snap` or `#bookmark`) against the
filesystem state. -/
def resolveRelName (s : FsState) (rel : String) : Option FilesystemVersion :=
  if rel.data.head? = some '@' then findVersion s .snapshot ⟨rel.data.tail⟩
  else if rel.data.head? = some '#' then findVersion s .bookmark ⟨rel.data.tail⟩
  else none

/-- Interpret a full path against the filesystem named `fs`: `some (t, name)`
when the path is `fs` followed by a delimiter and a name, `none` when the
path does not name a version of this filesystem. -/
def pathInFs (fs path : String) : Option (VersionType × String) :=
  match stripLit fs.data path.data with
  | some ('@' :: n) => some (.snapshot, ⟨n⟩)
  | some ('#' :: n) => some (.bookmark, ⟨n⟩)
  | _ => none

/-- `zfs.ZFSSendArgVersion`: a version reference carried by API requests. -/
structure ZFSSendArgVersion where
  RelName : String
  GUID : Nat
deriving DecidableEq, Repr

def ZFSSendArgVersion.FullPath (v : ZFSSendArgVersion) (fs : String) : String :=
  fs ++ v.RelName

/-- `strings.HasPrefix(v.RelName, "@")`. -/
def ZFSSendArgVersion.IsSnapshot (v : ZFSSendArgVersion) : Bool :=
  decide (v.RelName.data.head? = some '@')

structure Props where
  CreateTXG : Nat
  Guid : Nat
deriving DecidableEq, Repr

/-- Modelled from the spec (§4.D: "Validate that the version exists"):
the relative name must resolve on this filesystem and carry the expected
GUID. -/
def ZFSSendArgVersion.ValidateExists (v : ZFSSendArgVersion) (s : FsState) :
    Res Unit :=
  match resolveRelName s v.RelName with
  | some fv =>
    if fv.guid = v.GUID then .ok ()
    else .error (.err ("version does not have expected GUID: " ++ v.RelName))
  | none => .error (.datasetDoesNotExist v.RelName)

/-- Modelled from the spec (§4.D: validate existence and fetch
{create_txg, guid}). -/
def ZFSSendArgVersion.ValidateExistsAndGetCheckedProps
    (v : ZFSSendArgVersion) (s : FsState) : Res Props :=
  match resolveRelName s v.RelName with
  | some fv =>
    if fv.guid = v.GUID then .ok ⟨fv.createTXG, fv.guid⟩
    else .error (.err ("version does not have expected GUID: " ++ v.RelName))
  | none => .error (.datasetDoesNotExist v.RelName)

/-- Panics unless the reference is a bookmark. -/
def ZFSSendArgVersion.MustBeBookmark (v : ZFSSendArgVersion) : Res Unit :=
  if decide (v.RelName.data.head? = some '#') then .ok ()
  else .error (.panicked "must be bookmark")

/-- Modelled from the spec (§4.C Hold, §4.D: re-holding the same tag on the
same snapshot is an idempotent no-op). -/
def ZFSHold (v : ZFSSendArgVersion) (tag : String) (s : FsState) :
    Option GoErr × FsState :=
  match resolveRelName s v.RelName with
  | some fv =>
    if fv.type = .snapshot then
      if (fv.name, tag) ∈ s.holds then (none, s)
      else (none, { s with holds := (fv.name, tag) :: s.holds })
    else (some (.err ("cannot hold: not a snapshot: " ++ v.RelName)), s)
  | none => (some (.datasetDoesNotExist v.RelName), s)

/-- Modelled from the spec (§4.C Release): release `tag` from the snapshot
named by the full path; releasing a tag that is not present is an error. -/
def ZFSRelease (fs tag path : String) (s : FsState) : Option GoErr × FsState :=
  match pathInFs fs path with
  | some (.snapshot, n) =>
    if (n, tag) ∈ s.holds then
      (none, { s with holds := s.holds.filter (fun h => decide (h ≠ (n, tag))) })
    else (some (.err ("no such tag " ++ tag ++ " on " ++ path)), s)
  | _ => (some (.err ("cannot release: " ++ path)), s)

/-- A hold `(snap, tag')` is covered by a batch release with bound `bound`
(inclusive) when its tag is the released tag and its snapshot's create_txg
is at most the bound. -/
def holdCoveredIncl (s : FsState) (tag : String) (bound : Nat)
    (h : String × String) : Prop :=
  h.2 = tag ∧ ∃ fv ∈ s.versions,
    fv.type = VersionType.snapshot ∧ fv.name = h.1 ∧ fv.createTXG ≤ bound

instance (s : FsState) (tag : String) (bound : Nat) (h : String × String) :
    Decidable (holdCoveredIncl s tag bound h) := by
  unfold holdCoveredIncl; infer_instance

/-- Strict variant: create_txg strictly below the bound. -/
def holdCoveredStrict (s : FsState) (tag : String) (bound : Nat)
    (h : String × String) : Prop :=
  h.2 = tag ∧ ∃ fv ∈ s.versions,
    fv.type = VersionType.snapshot ∧ fv.name = h.1 ∧ fv.createTXG < bound

instance (s : FsState) (tag : String) (bound : Nat) (h : String × String) :
    Decidable (holdCoveredStrict s tag bound h) := by
  unfold holdCoveredStrict; infer_instance

/-- Modelled from the spec (§4.C): find the snapshot with guid `g`; release
every hold with `tag` on snapshots whose create_txg ≤ its create_txg. -/
def ZFSReleaseAllOlderAndIncludingGUID (g : Nat) (tag : String) (s : FsState) :
    Option GoErr × FsState :=
  match s.versions.find? (fun v => decide (v.type = .snapshot ∧ v.guid = g)) with
  | none => (some (.err "cannot find snapshot with guid"), s)
  | some v0 =>
    (none, { s with holds :=
      s.holds.filter (fun h => decide (¬ holdCoveredIncl s tag v0.createTXG h)) })

/-- Modelled from the spec (§4.C): the strict ("older than") variant. -/
def ZFSReleaseAllOlderThanGUID (g : Nat) (tag : String) (s : FsState) :
    Option GoErr × FsState :=
  match s.versions.find? (fun v => decide (v.type = .snapshot ∧ v.guid = g)) with
  | none => (some (.err "cannot find snapshot with guid"), s)
  | some v0 =>
    (none, { s with holds :=
      s.holds.filter (fun h => decide (¬ holdCoveredStrict s tag v0.createTXG h)) })

/-- Modelled from the spec (§4.D "Bookmark — idempotency contract"): create
`fs#bmname` from the source version; an existing bookmark of that name with
the same GUID is an idempotent success, with a different GUID a
*BookmarkExists* error; a destroyed source is *DatasetDoesNotExist*.  A
bookmark inherits guid and create_txg from its source (§3). -/
def ZFSBookmark (v : ZFSSendArgVersion) (bmname : String) (s : FsState) :
    Option GoErr × FsState :=
  match findVersion s .bookmark bmname with
  | some bm =>
    if bm.guid = v.GUID then (none, s)
    else (some (.bookmarkExists bmname), s)
  | none =>
    match resolveRelName s v.RelName with
    | none => (some (.datasetDoesNotExist v.RelName), s)
    | some src =>
      (none, { s with versions := s.versions ++
        [{ type := .bookmark, name := bmname, guid := src.guid,
           createTXG := src.createTXG, creation := src.creation }] })

/-- Modelled from the spec (§4.C Destroy): destroying a missing version (or
a path that does not name a version of this filesystem) fails with
*DatasetDoesNotExist*. -/
def ZFSDestroy (fs path : String) (s : FsState) : Option GoErr × FsState :=
  match pathInFs fs path with
  | some (t, n) =>
    if (findVersion s t n).isSome then
      (none, { s with versions :=
        s.versions.filter (fun v => decide (¬ (v.type = t ∧ v.name = n))) })
    else (some (.datasetDoesNotExist path), s)
  | none => (some (.datasetDoesNotExist path), s)

/-- Modelled from the spec (§4.C DestroyIdempotent): "does not exist" — a
missing version, or a path that does not name a version of this filesystem
at all — is success. -/
def ZFSDestroyIdempotent (fs path : String) (s : FsState) :
    Option GoErr × FsState :=
  match pathInFs fs path with
  | some (t, n) =>
    (none, { s with versions :=
      s.versions.filter (fun v => decide (¬ (v.type = t ∧ v.name = n))) })
  | none => (none, s)

/-- Modelled from the spec (§4.C GetCreateTXGAndGuid). -/
def ZFSGetCreateTXGAndGuid (fs path : String) (s : FsState) : Res Props :=
  match pathInFs fs path with
  | some (t, n) =>
    match findVersion s t n with
    | some v => .ok ⟨v.createTXG, v.guid⟩
    | none => .error (.datasetDoesNotExist path)
  | none => .error (.datasetDoesNotExist path)

/-- `zfs.ZFSListFilesystemVersions` applied to this filesystem: the state's
listing (ascending by create_txg), restricted by the optional
(type, name) filter.  The subprocess transport is out of scope, so the
listing itself always succeeds. -/
def ZFSListFilesystemVersions (s : FsState)
    (filter : Option (VersionType → String → Bool)) : List FilesystemVersion :=
  match filter with
  | none => s.versions
  | some f => s.versions.filter (fun v => f v.type v.name)

/-! ## Progress marker engine (endpoint/endpoint_zfs.go) -/

def ReplicationCursorBookmarkName : String := "zrepl_replication_cursor"

/-- `GetReplicationCursor`: list all versions, return the first bookmark
named `zrepl_replication_cursor`, or `none` (with no error) when absent. -/
def GetReplicationCursor (s : FsState) : Res (Option FilesystemVersion) :=
  let versions := ZFSListFilesystemVersions s none
  .ok (versions.find? (fun v =>
    decide (v.type = VersionType.bookmark ∧ v.name = ReplicationCursorBookmarkName)))

/-- `SetReplicationCursor`. -/
def SetReplicationCursor (fs : String) (target : ZFSSendArgVersion)
    (s : FsState) : Option GoErr × FsState :=
  if fs.length = 0 then (some (.err "filesystem name must not be empty"), s)
  else
    match target.ValidateExistsAndGetCheckedProps s with
    | .error e => (some e, s)
    | .ok snapProps =>
      let bookmarkPath := fs ++ "#" ++ ReplicationCursorBookmarkName
      match ZFSGetCreateTXGAndGuid fs bookmarkPath s with
      | .error (.datasetDoesNotExist _) =>
        ZFSBookmark target ReplicationCursorBookmarkName s
      | .error e => (some e, s)
      | .ok bookmarkProps =>
        if snapProps.CreateTXG < bookmarkProps.CreateTXG then
          (some (.err "can only be advanced, not set back"), s)
        else if bookmarkProps.Guid = snapProps.Guid then
          (none, s)
        else
          match ZFSDestroy fs bookmarkPath s with
          | (some e, s') => (some e, s')
          | (none, s') => ZFSBookmark target ReplicationCursorBookmarkName s'

/-- `ReleaseStep`.  Note the source passes `bmname` — the bookmark name
without the dataset path — to `ZFSDestroyIdempotent`. -/
def ReleaseStep (fs : String) (v : ZFSSendArgVersion) (jobID : JobID)
    (s : FsState) : Option GoErr × FsState :=
  match v.ValidateExists s with
  | .error e => (some e, s)
  | .ok _ =>
    if v.IsSnapshot then
      match StepHoldTag jobID with
      | .error e => (some e, s)
      | .ok tag => ZFSRelease fs tag (v.FullPath fs) s
    else
      match v.MustBeBookmark with
      | .error e => (some e, s)
      | .ok _ =>
        match StepBookmarkName fs v.GUID jobID with
        | .error e => (some e, s)
        | .ok bmname => ZFSDestroyIdempotent fs bmname s

/-- The destroy loop at the end of `ReleaseStepAll`. -/
def destroyLoop (fs : String) : List FilesystemVersion → FsState →
    Option GoErr × FsState
  | [], s => (none, s)
  | v :: vs, s =>
    match ZFSDestroyIdempotent fs (v.ToAbsPath fs) s with
    | (some e, s') => (some e, s')
    | (none, s') => destroyLoop fs vs s'

/-- The closure filter passed to the version listing in `ReleaseStepAll`. -/
def stepBookmarkFilter (fs : String) (jobID : JobID)
    (t : VersionType) (name : String) : Bool :=
  match ParseStepBookmarkName (fs ++ "#" ++ name) with
  | .ok (_, parsedId) => decide (t = VersionType.bookmark) && decide (parsedId = jobID)
  | .error _ => false

/-- `ReleaseStepAll`.  The re-parse inside the cut-off loop panics on a
decode failure; the listing filter guarantees it succeeds, so the model
keeps the cut-off as the plain create_txg filter. -/
def ReleaseStepAll (fs : String) (mostRecent : ZFSSendArgVersion)
    (jobID : JobID) (s : FsState) : Option GoErr × FsState :=
  match NewDatasetPath fs with
  | .error e => (some e, s)
  | .ok _ =>
    match mostRecent.ValidateExistsAndGetCheckedProps s with
    | .error e => (some e, s)
    | .ok mostRecentProps =>
      match StepHoldTag jobID with
      | .error e => (some e, s)
      | .ok tag =>
        match ZFSReleaseAllOlderAndIncludingGUID mostRecent.GUID tag s with
        | (some e, s') => (some e, s')
        | (none, s1) =>
          let stepBookmarks :=
            ZFSListFilesystemVersions s1 (some (stepBookmarkFilter fs jobID))
          let destroy := stepBookmarks.filter
            (fun v => decide (v.createTXG < mostRecentProps.CreateTXG))
          destroyLoop fs destroy s1

/-- `MoveLastReceivedHold`.  Returns the trace of states reached after each
executed mutating port call ([] when the operation failed before any
mutation; `[s1]` after the hold; `[s1, s2]` after hold and release). -/
def MoveLastReceivedHold (fs : String) (to' : ZFSSendArgVersion)
    (jobID : JobID) (s : FsState) : Option GoErr × List FsState :=
  match to'.ValidateExists s with
  | .error e => (some e, [])
  | .ok _ =>
    match EntityNamecheck (to'.FullPath fs) .snapshot with
    | .error e => (some e, [])
    | .ok _ =>
      match LastReceivedHoldTag jobID with
      | .error e => (some e, [])
      | .ok tag =>
        match ZFSHold to' tag s with
        | (some e, _) => (some e, [])
        | (none, s1) =>
          match ZFSReleaseAllOlderThanGUID to'.GUID tag s1 with
          | (some e, _) => (some e, [s1])
          | (none, s2) => (none, [s1, s2])

/-! ## Well-formed filesystem states -/

/-- A well-formed pool state for one filesystem: no two versions share
(type, name); snapshot guids are unique; names are legal components. -/
def WF (s : FsState) : Prop :=
  s.versions.Pairwise (fun a b => ¬ (a.type = b.type ∧ a.name = b.name)) ∧
  (∀ a ∈ s.versions, ∀ b ∈ s.versions,
    a.type = VersionType.snapshot → b.type = VersionType.snapshot →
    a.guid = b.guid → a = b) ∧
  (∀ v ∈ s.versions, validComponent v.name.data = true) ∧
  (∀ a ∈ s.versions, ∀ b ∈ s.versions, a.guid = b.guid →
    a.createTXG = b.createTXG)

instance (s : FsState) : Decidable (WF s) := by
  unfold WF; infer_instance

/-! ## Support lemmas for the engine proofs -/

theorem stripLit_append (l s : List Char) : stripLit l (l ++ s) = some s := by
  induction l with
  | nil => rfl
  | cons c cs ih => simp [stripLit, ih]

theorem splitFirst_append_not_mem (d : Char) (a b : List Char) (h : d ∉ a) :
    splitFirst d (a ++ d :: b) = some (a, b) := by
  induction a with
  | nil => simp [splitFirst]
  | cons c cs ih =>
    simp only [List.mem_cons, not_or] at h
    simp [splitFirst, Ne.symm h.1, ih h.2]

theorem pathInFs_sharp (fs n : String) :
    pathInFs fs (fs ++ "#" ++ n) = some (VersionType.bookmark, n) := by
  have h : (fs ++ "#" ++ n).data = fs.data ++ '#' :: n.data := by
    simp [String.data_append]
  simp [pathInFs, h, stripLit_append]

theorem pathInFs_at (fs n : String) :
    pathInFs fs (fs ++ "@" ++ n) = some (VersionType.snapshot, n) := by
  have h : (fs ++ "@" ++ n).data = fs.data ++ '@' :: n.data := by
    simp [String.data_append]
  simp [pathInFs, h, stripLit_append]

theorem find?_eq_of_unique {α : Type} {p : α → Bool} {l : List α} {a : α}
    (ha : a ∈ l) (hpa : p a = true)
    (uniq : ∀ x ∈ l, p x = true → x = a) : l.find? p = some a := by
  have hs : (l.find? p).isSome = true := List.find?_isSome.mpr ⟨a, ha, hpa⟩
  obtain ⟨b, hb⟩ := Option.isSome_iff_exists.mp hs
  have := uniq b (List.mem_of_find?_eq_some hb) (List.find?_some hb)
  rw [hb, this]

/-- No two versions of a well-formed state share (type, name). -/
theorem WF.name_unique {s : FsState} (hwf : WF s) {a b : FilesystemVersion}
    (ha : a ∈ s.versions) (hb : b ∈ s.versions)
    (ht : a.type = b.type) (hn : a.name = b.name) : a = b := by
  by_contra hne
  have hsym : Symmetric (fun a b : FilesystemVersion =>
      ¬ (a.type = b.type ∧ a.name = b.name)) := by
    intro x y hxy hcon
    exact hxy ⟨hcon.1.symm, hcon.2.symm⟩
  exact hwf.1.forall hsym ha hb hne ⟨ht, hn⟩

theorem findVersion_eq_some {s : FsState} (hwf : WF s)
    {v : FilesystemVersion} (hv : v ∈ s.versions) :
    findVersion s v.type v.name = some v := by
  refine find?_eq_of_unique hv (by simp) ?_
  intro x hx hpx
  simp only [decide_eq_true_eq] at hpx
  exact hwf.name_unique hx hv hpx.1 hpx.2

/-- **C6**: when the listing of a filesystem's versions contains no bookmark
named `zrepl_replication_cursor`, `GetReplicationCursor` returns no version
and no error; when such a bookmark is present it returns that bookmark's
version. -/
theorem C6_GetReplicationCursor_spec (s : FsState) :
    ((∀ v ∈ s.versions,
        ¬ (v.type = VersionType.bookmark ∧ v.name = ReplicationCursorBookmarkName)) →
      GetReplicationCursor s = .ok none) ∧
    (∀ v, GetReplicationCursor s = .ok (some v) →
      v ∈ s.versions ∧ v.type = VersionType.bookmark ∧
        v.name = ReplicationCursorBookmarkName) ∧
    ((∃ v ∈ s.versions, v.type = VersionType.bookmark ∧
        v.name = ReplicationCursorBookmarkName) →
      ∃ v, GetReplicationCursor s = .ok (some v) ∧ v ∈ s.versions ∧
        v.type = VersionType.bookmark ∧
        v.name = ReplicationCursorBookmarkName) := by
  have hG : GetReplicationCursor s = .ok (s.versions.find? (fun v =>
      decide (v.type = VersionType.bookmark ∧
        v.name = ReplicationCursorBookmarkName))) := rfl
  refine ⟨?_, ?_, ?_⟩
  · intro h
    rw [hG, List.find?_eq_none.mpr ?_]
    intro x hx
    simpa using h x hx
  · intro v hv
    rw [hG] at hv
    have hfind := Except.ok.inj hv
    refine ⟨List.mem_of_find?_eq_some hfind, ?_⟩
    simpa using List.find?_some hfind
  · intro h
    obtain ⟨v, hv, hvp⟩ := h
    have hs : (s.versions.find? (fun v =>
        decide (v.type = VersionType.bookmark ∧
          v.name = ReplicationCursorBookmarkName))).isSome = true :=
      List.find?_isSome.mpr ⟨v, hv, by simpa using hvp⟩
    obtain ⟨b, hb⟩ := Option.isSome_iff_exists.mp hs
    refine ⟨b, ?_, List.mem_of_find?_eq_some hb, ?_⟩
    · rw [hG, hb]
    · simpa using List.find?_some hb

/-- Witness for C6: absent cursor gives `(nil, nil)`; present cursor is
returned. -/
theorem C6_GetReplicationCursor_spec_witness :
    GetReplicationCursor
      ⟨[⟨VersionType.snapshot, "a", 1, 1, 0⟩], []⟩ = .ok none ∧
    (∃ v, GetReplicationCursor
        ⟨[⟨VersionType.bookmark, "zrepl_replication_cursor", 7, 3, 0⟩], []⟩ =
          .ok (some v) ∧
      v ∈ [(⟨VersionType.bookmark, "zrepl_replication_cursor", 7, 3, 0⟩ : FilesystemVersion)] ∧
      v.type = VersionType.bookmark ∧
      v.name = ReplicationCursorBookmarkName) := by
  constructor
  · exact (C6_GetReplicationCursor_spec ⟨[⟨VersionType.snapshot, "a", 1, 1, 0⟩], []⟩).1
      (by decide)
  · exact (C6_GetReplicationCursor_spec
      ⟨[⟨VersionType.bookmark, "zrepl_replication_cursor", 7, 3, 0⟩], []⟩).2.2
      ⟨⟨VersionType.bookmark, "zrepl_replication_cursor", 7, 3, 0⟩,
        by simp, by decide⟩

/-- Concrete filesystem for the ReleaseStep evaluation: one held snapshot
and the job's step bookmark. -/
def c7fs : FsState :=
  ⟨[⟨VersionType.snapshot, "5", 15, 5, 0⟩,
    ⟨VersionType.bookmark, "zrepl_STEP_G_000000000000000b_J_myjob", 11, 1, 0⟩],
   [("5", "zrepl_STEP_J_myjob")]⟩

/-- **C7** (counter-evaluation): the snapshot case of `ReleaseStep` releases
the job's step hold as claimed, but the bookmark case does not destroy the
step bookmark: the source passes `bmname` — the bookmark name *without* the
`<fs>#` dataset-path part — to `ZFSDestroyIdempotent` (contrast
`ReleaseStepAll`, which passes `v.ToAbsPath(fsp)`), so the destroy addresses
a dataset that does not exist, idempotency turns that into success, and the
step bookmark survives while the call reports success. -/
theorem C7_ReleaseStep_eval :
    ReleaseStep "tank/fs" ⟨"@5", 15⟩ ⟨"myjob"⟩ c7fs =
      (none, ⟨c7fs.versions, []⟩) ∧
    ReleaseStep "tank/fs" ⟨"#zrepl_STEP_G_000000000000000b_J_myjob", 11⟩
        ⟨"myjob"⟩ c7fs = (none, c7fs) ∧
    (⟨VersionType.bookmark, "zrepl_STEP_G_000000000000000b_J_myjob", 11, 1, 0⟩
        : FilesystemVersion) ∈
      (ReleaseStep "tank/fs" ⟨"#zrepl_STEP_G_000000000000000b_J_myjob", 11⟩
        ⟨"myjob"⟩ c7fs).2.versions := by
  refine ⟨by decide, by decide, by decide⟩

/-- Concrete filesystem for the ReleaseStepAll evaluation: six held
snapshots (one with a foreign tag), the job's step bookmark at
create_txg 1, and a foreign bookmark. -/
def c2fs : FsState :=
  ⟨[⟨VersionType.snapshot, "1", 11, 1, 0⟩,
    ⟨VersionType.snapshot, "2", 12, 2, 0⟩,
    ⟨VersionType.snapshot, "3", 13, 3, 0⟩,
    ⟨VersionType.snapshot, "4", 14, 4, 0⟩,
    ⟨VersionType.snapshot, "5", 15, 5, 0⟩,
    ⟨VersionType.snapshot, "6", 16, 6, 0⟩,
    ⟨VersionType.bookmark, "zrepl_STEP_G_000000000000000b_J_myjob", 11, 1, 0⟩,
    ⟨VersionType.bookmark, "other_bookmark", 12, 2, 0⟩],
   [("1", "zrepl_STEP_J_myjob"), ("2", "zrepl_platformtest_2"),
    ("3", "zrepl_STEP_J_myjob"), ("5", "zrepl_STEP_J_myjob"),
    ("6", "zrepl_STEP_J_myjob")]⟩

/-- **C2** (counter-evaluation): `ReleaseStepAll` with `mostRecent = @5`
(create_txg 5) releases exactly the job's step holds on snapshots with
create_txg ≤ 5 and leaves the foreign tag and the later hold — but it
destroys **no** step bookmark: its listing filter calls
`ParseStepBookmarkName(fs + "#" + name)`, which fails on every full step
bookmark name (the C4/C5 `Sscanf` slip), so the job's step bookmark at
create_txg 1 < 5 survives although the claim says exactly it is
destroyed. -/
theorem C2_ReleaseStepAll_eval :
    ReleaseStepAll "tank/fs" ⟨"@5", 15⟩ ⟨"myjob"⟩ c2fs =
      (none, ⟨c2fs.versions,
        [("2", "zrepl_platformtest_2"), ("6", "zrepl_STEP_J_myjob")]⟩) ∧
    (⟨VersionType.bookmark, "zrepl_STEP_G_000000000000000b_J_myjob", 11, 1, 0⟩
        : FilesystemVersion) ∈
      (ReleaseStepAll "tank/fs" ⟨"@5", 15⟩ ⟨"myjob"⟩ c2fs).2.versions ∧
    stepBookmarkFilter "tank/fs" ⟨"myjob"⟩ VersionType.bookmark
      "zrepl_STEP_G_000000000000000b_J_myjob" = false := by
  refine ⟨by decide, by decide, by decide⟩

theorem findVersion_some_spec {s : FsState} {t : VersionType} {n : String}
    {vt : FilesystemVersion} (h : findVersion s t n = some vt) :
    vt ∈ s.versions ∧ vt.type = t ∧ vt.name = n := by
  have hp := List.find?_some h
  simp only [decide_eq_true_eq] at hp
  exact ⟨List.mem_of_find?_eq_some h, hp.1, hp.2⟩

theorem resolveRelName_some_spec {s : FsState} {rel : String}
    {vt : FilesystemVersion} (h : resolveRelName s rel = some vt) :
    vt ∈ s.versions ∧
      ((rel.data = '@' :: vt.name.data ∧ vt.type = VersionType.snapshot) ∨
       (rel.data = '#' :: vt.name.data ∧ vt.type = VersionType.bookmark)) := by
  unfold resolveRelName at h
  by_cases h1 : rel.data.head? = some '@'
  · rw [if_pos h1] at h
    obtain ⟨hm, ht, hn⟩ := findVersion_some_spec h
    refine ⟨hm, .inl ⟨?_, ht⟩⟩
    have hnd : vt.name.data = rel.data.tail := by rw [hn]
    cases hd : rel.data with
    | nil => rw [hd] at h1; simp at h1
    | cons c m =>
      rw [hd] at h1 hnd
      simp only [List.head?_cons, Option.some.injEq] at h1
      simp only [List.tail_cons] at hnd
      rw [h1, hnd]
  · rw [if_neg h1] at h
    by_cases h2 : rel.data.head? = some '#'
    · rw [if_pos h2] at h
      obtain ⟨hm, ht, hn⟩ := findVersion_some_spec h
      refine ⟨hm, .inr ⟨?_, ht⟩⟩
      have hnd : vt.name.data = rel.data.tail := by rw [hn]
      cases hd : rel.data with
      | nil => rw [hd] at h2; simp at h2
      | cons c m =>
        rw [hd] at h2 hnd
        simp only [List.head?_cons, Option.some.injEq] at h2
        simp only [List.tail_cons] at hnd
        rw [h2, hnd]
    · rw [if_neg h2] at h
      cases h

theorem findVersion_filter_keep {s : FsState} (hwf : WF s) {t : VersionType}
    {n : String} {vt : FilesystemVersion}
    (h : findVersion s t n = some vt) (q : FilesystemVersion → Bool)
    (hq : q vt = true) (hl : List (String × String)) :
    findVersion ⟨s.versions.filter q, hl⟩ t n = some vt := by
  have hmem := List.mem_of_find?_eq_some h
  have hpred := List.find?_some h
  show (s.versions.filter q).find?
    (fun v => decide (v.type = t ∧ v.name = n)) = some vt
  rw [List.find?_filter]
  refine find?_eq_of_unique hmem ?_ ?_
  · simp only [decide_eq_true_eq]
    exact ⟨hq, of_decide_eq_true hpred⟩
  · intro x hx hpx
    simp only [decide_eq_true_eq] at hpx hpred
    exact hwf.name_unique hx hmem (hpx.2.1.trans hpred.1.symm)
      (hpx.2.2.trans hpred.2.symm)

theorem resolveRelName_filter_keep {s : FsState} (hwf : WF s) {rel : String}
    {vt : FilesystemVersion} (h : resolveRelName s rel = some vt)
    (q : FilesystemVersion → Bool) (hq : q vt = true)
    (hl : List (String × String)) :
    resolveRelName ⟨s.versions.filter q, hl⟩ rel = some vt := by
  unfold resolveRelName at h ⊢
  by_cases h1 : rel.data.head? = some '@'
  · rw [if_pos h1] at h ⊢
    exact findVersion_filter_keep hwf h q hq hl
  · rw [if_neg h1] at h ⊢
    by_cases h2 : rel.data.head? = some '#'
    · rw [if_pos h2] at h ⊢
      exact findVersion_filter_keep hwf h q hq hl
    · rw [if_neg h2] at h
      cases h

/-- **C3**: for a non-empty filesystem and an existing target version:
if a cursor bookmark exists and the target's create_txg is below the
cursor's, `SetReplicationCursor` fails with the "can only be advanced" error
and changes nothing; if the cursor exists with the target's guid it succeeds
without mutation; otherwise it destroys the existing cursor (if any) and
creates `zrepl_replication_cursor` pointing at the target — and across any
successful call the cursor's create_txg never decreases. -/
theorem C3_SetReplicationCursor_spec
    (fs : String) (target : ZFSSendArgVersion) (s : FsState)
    (vt : FilesystemVersion)
    (hwf : WF s) (hfs : ¬ fs.length = 0)
    (hres : resolveRelName s target.RelName = some vt)
    (hguid : vt.guid = target.GUID) :
    (∀ bm, findVersion s VersionType.bookmark ReplicationCursorBookmarkName =
        some bm →
      (vt.createTXG < bm.createTXG →
        SetReplicationCursor fs target s =
          (some (.err "can only be advanced, not set back"), s)) ∧
      (bm.guid = vt.guid → SetReplicationCursor fs target s = (none, s)) ∧
      (¬ bm.guid = vt.guid → ¬ vt.createTXG < bm.createTXG →
        SetReplicationCursor fs target s =
          (none, ⟨s.versions.filter (fun v =>
              decide (¬ (v.type = VersionType.bookmark ∧
                v.name = ReplicationCursorBookmarkName))) ++
            [⟨VersionType.bookmark, ReplicationCursorBookmarkName,
              vt.guid, vt.createTXG, vt.creation⟩], s.holds⟩))) ∧
    (findVersion s VersionType.bookmark ReplicationCursorBookmarkName = none →
      SetReplicationCursor fs target s =
        (none, ⟨s.versions ++
          [⟨VersionType.bookmark, ReplicationCursorBookmarkName,
            vt.guid, vt.createTXG, vt.creation⟩], s.holds⟩)) ∧
    (∀ bm r, findVersion s VersionType.bookmark ReplicationCursorBookmarkName =
        some bm →
      SetReplicationCursor fs target s = (none, r) →
      ∃ bm', findVersion r VersionType.bookmark ReplicationCursorBookmarkName =
          some bm' ∧ bm.createTXG ≤ bm'.createTXG) := by
  have hmemvt := (resolveRelName_some_spec hres).1
  have hVE : target.ValidateExistsAndGetCheckedProps s =
      .ok ⟨vt.createTXG, vt.guid⟩ := by
    unfold ZFSSendArgVersion.ValidateExistsAndGetCheckedProps
    rw [hres]
    simp [hguid]
  have hmain : ∀ bm,
      findVersion s VersionType.bookmark ReplicationCursorBookmarkName =
        some bm →
      (vt.createTXG < bm.createTXG →
        SetReplicationCursor fs target s =
          (some (.err "can only be advanced, not set back"), s)) ∧
      (bm.guid = vt.guid → SetReplicationCursor fs target s = (none, s)) ∧
      (¬ bm.guid = vt.guid → ¬ vt.createTXG < bm.createTXG →
        SetReplicationCursor fs target s =
          (none, ⟨s.versions.filter (fun v =>
              decide (¬ (v.type = VersionType.bookmark ∧
                v.name = ReplicationCursorBookmarkName))) ++
            [⟨VersionType.bookmark, ReplicationCursorBookmarkName,
              vt.guid, vt.createTXG, vt.creation⟩], s.holds⟩)) := by
    intro bm hbm
    obtain ⟨hbmm, hbmt, hbmn⟩ := findVersion_some_spec hbm
    have hget : ZFSGetCreateTXGAndGuid fs
        (fs ++ "#" ++ ReplicationCursorBookmarkName) s =
        .ok ⟨bm.createTXG, bm.guid⟩ := by
      simp [ZFSGetCreateTXGAndGuid, pathInFs_sharp, hbm]
    refine ⟨?_, ?_, ?_⟩
    · intro hlt
      simp [SetReplicationCursor, hfs, hVE, hget, hlt]
    · intro hg
      have htxg : bm.createTXG = vt.createTXG :=
        hwf.2.2.2 bm hbmm vt hmemvt hg
      have hnlt : ¬ vt.createTXG < bm.createTXG := by
        rw [htxg]; exact lt_irrefl _
      simp [SetReplicationCursor, hfs, hVE, hget, hnlt, hg]
    · intro hg hnlt
      have hdes : ZFSDestroy fs (fs ++ "#" ++ ReplicationCursorBookmarkName) s =
          (none, ⟨s.versions.filter (fun v =>
            decide (¬ (v.type = VersionType.bookmark ∧
              v.name = ReplicationCursorBookmarkName))), s.holds⟩) := by
        simp [ZFSDestroy, pathInFs_sharp, hbm]
      have hvtq : (fun v => decide (¬ (v.type = VersionType.bookmark ∧
          v.name = ReplicationCursorBookmarkName))) vt = true := by
        simp only [decide_eq_true_eq]
        intro hcon
        exact hg (congrArg FilesystemVersion.guid
          (hwf.name_unique hbmm hmemvt (hbmt.trans hcon.1.symm)
            (hbmn.trans hcon.2.symm)))
      have hnone : findVersion ⟨s.versions.filter (fun v =>
          decide (¬ (v.type = VersionType.bookmark ∧
            v.name = ReplicationCursorBookmarkName))), s.holds⟩
          VersionType.bookmark ReplicationCursorBookmarkName = none := by
        show (s.versions.filter _).find? _ = none
        rw [List.find?_eq_none]
        intro x hx
        have hxq := (List.mem_filter.mp hx).2
        simp only [decide_eq_true_eq] at hxq ⊢
        exact hxq
      have hres' : resolveRelName ⟨s.versions.filter (fun v =>
          decide (¬ (v.type = VersionType.bookmark ∧
            v.name = ReplicationCursorBookmarkName))), s.holds⟩
          target.RelName = some vt :=
        resolveRelName_filter_keep hwf hres _ hvtq _
      have hbook : ZFSBookmark target ReplicationCursorBookmarkName
          ⟨s.versions.filter (fun v =>
            decide (¬ (v.type = VersionType.bookmark ∧
              v.name = ReplicationCursorBookmarkName))), s.holds⟩ =
          (none, ⟨s.versions.filter (fun v =>
              decide (¬ (v.type = VersionType.bookmark ∧
                v.name = ReplicationCursorBookmarkName))) ++
            [⟨VersionType.bookmark, ReplicationCursorBookmarkName,
              vt.guid, vt.createTXG, vt.creation⟩], s.holds⟩) := by
        simp only [ZFSBookmark, hnone, hres']
      simp only [SetReplicationCursor, if_neg hfs, hVE, hget, if_neg hnlt,
        if_neg hg, hdes, hbook]
  refine ⟨hmain, ?_, ?_⟩
  · intro hnone0
    have hget0 : ZFSGetCreateTXGAndGuid fs
        (fs ++ "#" ++ ReplicationCursorBookmarkName) s =
        .error (.datasetDoesNotExist
          (fs ++ "#" ++ ReplicationCursorBookmarkName)) := by
      simp [ZFSGetCreateTXGAndGuid, pathInFs_sharp, hnone0]
    have hbook0 : ZFSBookmark target ReplicationCursorBookmarkName s =
        (none, ⟨s.versions ++
          [⟨VersionType.bookmark, ReplicationCursorBookmarkName,
            vt.guid, vt.createTXG, vt.creation⟩], s.holds⟩) := by
      simp only [ZFSBookmark, hnone0, hres]
    simp [SetReplicationCursor, hfs, hVE, hget0, hbook0]
  · intro bm r hbm hsuc
    obtain ⟨hbmm, hbmt, hbmn⟩ := findVersion_some_spec hbm
    by_cases hlt : vt.createTXG < bm.createTXG
    · rw [(hmain bm hbm).1 hlt] at hsuc
      exact absurd (congrArg Prod.fst hsuc) (by simp)
    · by_cases hg : bm.guid = vt.guid
      · rw [(hmain bm hbm).2.1 hg] at hsuc
        have hr : s = r := congrArg Prod.snd hsuc
        refine ⟨bm, ?_, le_refl _⟩
        rw [← hr]; exact hbm
      · rw [(hmain bm hbm).2.2 hg hlt] at hsuc
        have hr : (⟨s.versions.filter (fun v =>
            decide (¬ (v.type = VersionType.bookmark ∧
              v.name = ReplicationCursorBookmarkName))) ++
          [⟨VersionType.bookmark, ReplicationCursorBookmarkName,
            vt.guid, vt.createTXG, vt.creation⟩], s.holds⟩ : FsState) = r :=
          congrArg Prod.snd hsuc
        refine ⟨⟨VersionType.bookmark, ReplicationCursorBookmarkName,
          vt.guid, vt.createTXG, vt.creation⟩, ?_, Nat.le_of_not_lt hlt⟩
        rw [← hr]
        show (List.filter _ s.versions ++ _).find? _ = _
        rw [List.find?_append]
        have hfn : (s.versions.filter (fun v =>
            decide (¬ (v.type = VersionType.bookmark ∧
              v.name = ReplicationCursorBookmarkName)))).find?
            (fun v => decide (v.type = VersionType.bookmark ∧
              v.name = ReplicationCursorBookmarkName)) = none := by
          rw [List.find?_eq_none]
          intro x hx
          have hxq := (List.mem_filter.mp hx).2
          simp only [decide_eq_true_eq] at hxq ⊢
          exact hxq
        rw [hfn]
        simp

/-- Concrete filesystem for the C3 witness: cursor at create_txg 5, target
snapshot at create_txg 6. -/
def c3fs : FsState :=
  ⟨[⟨VersionType.snapshot, "5", 15, 5, 0⟩,
    ⟨VersionType.snapshot, "6", 16, 6, 0⟩,
    ⟨VersionType.bookmark, "zrepl_replication_cursor", 15, 5, 0⟩], []⟩

def c3vt : FilesystemVersion := ⟨VersionType.snapshot, "6", 16, 6, 0⟩

/-- Witness for C3: advancing the cursor from create_txg 5 to the snapshot
at create_txg 6 destroys the old cursor bookmark and creates the new one. -/
theorem C3_SetReplicationCursor_spec_witness :
    WF c3fs ∧ ¬ ("tank/fs" : String).length = 0 ∧
    resolveRelName c3fs (ZFSSendArgVersion.RelName ⟨"@6", 16⟩) = some c3vt ∧
    c3vt.guid = ZFSSendArgVersion.GUID ⟨"@6", 16⟩ ∧
    SetReplicationCursor "tank/fs" ⟨"@6", 16⟩ c3fs =
      (none, ⟨c3fs.versions.filter (fun v =>
          decide (¬ (v.type = VersionType.bookmark ∧
            v.name = ReplicationCursorBookmarkName))) ++
        [⟨VersionType.bookmark, ReplicationCursorBookmarkName,
          c3vt.guid, c3vt.createTXG, c3vt.creation⟩], c3fs.holds⟩) :=
  ⟨by decide, by decide, by decide, by decide,
    ((C3_SetReplicationCursor_spec "tank/fs" ⟨"@6", 16⟩ c3fs c3vt (by decide)
        (by decide) (by decide) (by decide)).1
      ⟨VersionType.bookmark, "zrepl_replication_cursor", 15, 5, 0⟩
      (by decide)).2.2 (by decide) (by decide)⟩

theorem validComponent_not_mem {xs : List Char} (h : validComponent xs = true)
    {c : Char} (hc : goodComponentChar c = false) : c ∉ xs := by
  intro hmem
  unfold validComponent at h
  simp only [Bool.and_eq_true, List.all_eq_true] at h
  have := h.2 c hmem
  rw [hc] at this
  cases this

/-- **C1**: for an existing snapshot `to`, `MoveLastReceivedHold` first
acquires the job's `zrepl_last_received_J_<jobid>` hold on `to` and only
afterwards releases the older holds with that tag, the release covering
exactly the holds on snapshots with create_txg strictly below `to`'s — so
the job's hold on `to` is present in every state of the operation's
mutation trace; a `to` that exists but is not a snapshot is rejected with
an error before any mutation. -/
theorem C1_MoveLastReceivedHold_no_gap
    (fs : String) (to' : ZFSSendArgVersion) (j : JobID) (s : FsState)
    (vt : FilesystemVersion) (tag : String)
    (hwf : WF s)
    (hfsv : validDatasetPathStr fs = true)
    (hat : '@' ∉ fs.data)
    (hlen : (fs ++ to'.RelName).length ≤ 255)
    (htag : LastReceivedHoldTag j = .ok tag)
    (hres : resolveRelName s to'.RelName = some vt)
    (hguid : vt.guid = to'.GUID) :
    (vt.type = VersionType.bookmark →
      ∃ e, MoveLastReceivedHold fs to' j s = (some e, [])) ∧
    (vt.type = VersionType.snapshot →
      ∃ s1 s2, MoveLastReceivedHold fs to' j s = (none, [s1, s2]) ∧
        s1.versions = s.versions ∧
        (∀ h, h ∈ s1.holds ↔ h = (vt.name, tag) ∨ h ∈ s.holds) ∧
        s2.versions = s.versions ∧
        (∀ h, h ∈ s2.holds ↔
          h ∈ s1.holds ∧ ¬ holdCoveredStrict s1 tag vt.createTXG h) ∧
        (vt.name, tag) ∈ s1.holds ∧ (vt.name, tag) ∈ s2.holds) := by
  obtain ⟨hmemvt, hcase⟩ := resolveRelName_some_spec hres
  have hval : to'.ValidateExists s = .ok () := by
    unfold ZFSSendArgVersion.ValidateExists
    rw [hres]
    simp [hguid]
  have hnamev : validComponent vt.name.data = true := hwf.2.2.1 vt hmemvt
  constructor
  · -- (a) bookmark target: EntityNamecheck as a snapshot fails, trace empty
    intro htype
    have hreld : to'.RelName.data = '#' :: vt.name.data := by
      cases hcase with
      | inl hc => rw [hc.2] at htype; cases htype
      | inr hc => exact hc.1
    have hnomem : '@' ∉ (fs ++ to'.RelName).data := by
      rw [String.data_append, hreld]
      intro hm
      rcases List.mem_append.mp hm with hm | hm
      · exact hat hm
      · rcases List.mem_cons.mp hm with hm | hm
        · cases hm
        · exact validComponent_not_mem hnamev (by decide) hm
    have hnc : EntityNamecheck (to'.FullPath fs) VersionType.snapshot =
        .error (.err ("path does not contain delimiter: " ++ (fs ++ to'.RelName))) := by
      unfold EntityNamecheck ZFSSendArgVersion.FullPath
      rw [show VersionType.snapshot.DelimiterChar = '@' from rfl,
        splitFirst_eq_none '@' _ hnomem]
    refine ⟨.err ("path does not contain delimiter: " ++ (fs ++ to'.RelName)), ?_⟩
    simp only [MoveLastReceivedHold, hval, hnc]
  · -- (b) snapshot target
    intro htype
    have hreld : to'.RelName.data = '@' :: vt.name.data := by
      cases hcase with
      | inl hc => exact hc.1
      | inr hc => rw [hc.2] at htype; cases htype
    have hnc : EntityNamecheck (to'.FullPath fs) VersionType.snapshot =
        .ok () := by
      unfold EntityNamecheck ZFSSendArgVersion.FullPath
      have hd : (fs ++ to'.RelName).data = fs.data ++ '@' :: vt.name.data := by
        rw [String.data_append, hreld]
      rw [show VersionType.snapshot.DelimiterChar = '@' from rfl, hd,
        splitFirst_append_not_mem '@' fs.data vt.name.data hat]
      have hulen : fs.length + to'.RelName.length ≤ 255 := by
        have h' := hlen
        rwa [String.length_append] at h'
      simp only [← hd]
      simp [hfsv, hnamev, hulen]
    have hfind : s.versions.find? (fun v =>
        decide (v.type = VersionType.snapshot ∧ v.guid = to'.GUID)) =
        some vt := by
      refine find?_eq_of_unique hmemvt (by simp [htype, hguid]) ?_
      intro x hx hpx
      simp only [decide_eq_true_eq] at hpx
      exact hwf.2.1 x hx vt hmemvt hpx.1 htype (hpx.2.trans hguid.symm)
    have hresolve : resolveRelName s to'.RelName =
        findVersion s VersionType.snapshot vt.name := by
      unfold resolveRelName
      rw [hreld]
      simp
    have hnocover : ∀ s1 : FsState, s1.versions = s.versions →
        ¬ holdCoveredStrict s1 tag vt.createTXG (vt.name, tag) := by
      intro s1 hv hcov
      obtain ⟨-, fv, hfvmem, hfvt, hfvn, hfvlt⟩ := hcov
      rw [hv] at hfvmem
      have : fv = vt := hwf.name_unique hfvmem hmemvt (hfvt.trans htype.symm) hfvn
      rw [this] at hfvlt
      exact lt_irrefl _ hfvlt
    have hfv : findVersion s VersionType.snapshot vt.name = some vt := by
      have h' := findVersion_eq_some hwf hmemvt
      rw [htype] at h'
      exact h'
    by_cases hmem : (vt.name, tag) ∈ s.holds
    · have hhold : ZFSHold to' tag s = (none, s) := by
        rw [ZFSHold, hresolve, hfv]
        simp [htype, hmem]
      refine ⟨s, ⟨s.versions, s.holds.filter (fun h =>
          decide (¬ holdCoveredStrict s tag vt.createTXG h))⟩, ?_, rfl, ?_,
        rfl, ?_, hmem, ?_⟩
      · have hrel : ZFSReleaseAllOlderThanGUID to'.GUID tag s =
            (none, ⟨s.versions, s.holds.filter (fun h =>
              decide (¬ holdCoveredStrict s tag vt.createTXG h))⟩) := by
          simp only [ZFSReleaseAllOlderThanGUID, hfind]
        simp only [MoveLastReceivedHold, hval, hnc, htag, hhold, hrel]
      · intro h
        constructor
        · exact fun hh => .inr hh
        · rintro (rfl | hh)
          · exact hmem
          · exact hh
      · intro h
        simp [List.mem_filter]
      · simp only [List.mem_filter]
        refine ⟨hmem, ?_⟩
        simp only [decide_eq_true_eq]
        exact hnocover s rfl
    · have hhold : ZFSHold to' tag s =
          (none, ⟨s.versions, (vt.name, tag) :: s.holds⟩) := by
        rw [ZFSHold, hresolve, hfv]
        simp [htype, hmem]
      refine ⟨⟨s.versions, (vt.name, tag) :: s.holds⟩,
        ⟨s.versions, ((vt.name, tag) :: s.holds).filter (fun h =>
          decide (¬ holdCoveredStrict ⟨s.versions, (vt.name, tag) :: s.holds⟩
            tag vt.createTXG h))⟩, ?_, rfl, ?_, rfl, ?_, ?_, ?_⟩
      · have hrel : ZFSReleaseAllOlderThanGUID to'.GUID tag
            ⟨s.versions, (vt.name, tag) :: s.holds⟩ =
            (none, ⟨s.versions, ((vt.name, tag) :: s.holds).filter (fun h =>
              decide (¬ holdCoveredStrict ⟨s.versions, (vt.name, tag) :: s.holds⟩
                tag vt.createTXG h))⟩) := by
          simp only [ZFSReleaseAllOlderThanGUID, hfind]
        simp only [MoveLastReceivedHold, hval, hnc, htag, hhold, hrel]
      · intro h
        simp [List.mem_cons]
      · intro h
        simp [List.mem_filter]
      · exact List.mem_cons_self _ _
      · simp only [List.mem_filter]
        refine ⟨List.mem_cons_self _ _, ?_⟩
        simp only [decide_eq_true_eq]
        exact hnocover _ rfl

/-- Concrete filesystem for the C1 witness: the job already holds the old
snapshot at create_txg 1; the hold moves to the snapshot at create_txg 5. -/
def c1fs : FsState :=
  ⟨[⟨VersionType.snapshot, "1", 11, 1, 0⟩,
    ⟨VersionType.snapshot, "5", 15, 5, 0⟩],
   [("1", "zrepl_last_received_J_myjob")]⟩

def c1vt : FilesystemVersion := ⟨VersionType.snapshot, "5", 15, 5, 0⟩

/-- Witness for C1: moving the last-received hold from `@1` to `@5` acquires
the hold on `@5` first and only then releases the strictly older hold, the
new hold being present in both traced states. -/
theorem C1_MoveLastReceivedHold_no_gap_witness :
    WF c1fs ∧
    validDatasetPathStr "tank/fs" = true ∧
    '@' ∉ ("tank/fs" : String).data ∧
    (("tank/fs" : String) ++ ZFSSendArgVersion.RelName ⟨"@5", 15⟩).length ≤ 255 ∧
    LastReceivedHoldTag ⟨"myjob"⟩ = .ok "zrepl_last_received_J_myjob" ∧
    resolveRelName c1fs (ZFSSendArgVersion.RelName ⟨"@5", 15⟩) = some c1vt ∧
    c1vt.guid = ZFSSendArgVersion.GUID ⟨"@5", 15⟩ ∧
    c1vt.type = VersionType.snapshot ∧
    (∃ s1 s2, MoveLastReceivedHold "tank/fs" ⟨"@5", 15⟩ ⟨"myjob"⟩ c1fs =
        (none, [s1, s2]) ∧
      s1.versions = c1fs.versions ∧
      (∀ h, h ∈ s1.holds ↔
        h = (c1vt.name, "zrepl_last_received_J_myjob") ∨ h ∈ c1fs.holds) ∧
      s2.versions = c1fs.versions ∧
      (∀ h, h ∈ s2.holds ↔ h ∈ s1.holds ∧
        ¬ holdCoveredStrict s1 "zrepl_last_received_J_myjob" c1vt.createTXG h) ∧
      (c1vt.name, "zrepl_last_received_J_myjob") ∈ s1.holds ∧
      (c1vt.name, "zrepl_last_received_J_myjob") ∈ s2.holds) :=
  ⟨by decide, by decide, by decide, by decide, by decide, by decide, by decide,
    by decide,
    (C1_MoveLastReceivedHold_no_gap "tank/fs" ⟨"@5", 15⟩ ⟨"myjob"⟩ c1fs c1vt
      "zrepl_last_received_J_myjob" (by decide) (by decide) (by decide)
      (by decide) (by decide) (by decide) (by decide)).2 (by decide)⟩
